import Mathlib

/-!
Formal model of the Music-Album-Scaler repository (`src/utils.py`,
`src/main.py`), embedded shallowly in Lean 4.

Modelling conventions:
* Python strings are Lean `String` / `List Char`; character classes
  (`\w`, `\s`, `\d`) are modelled on their ASCII fragment.
* Python integers are `Nat` (all integers involved are non-negative);
  `int()` applied to a non-negative float ratio is modelled as exact
  rational truncation, i.e. `Nat` floor division.
* Fallible operations return `Option`; a Python exception that a
  function catches and converts is modelled by the corresponding
  `Option`/sum constructor.
* The filesystem is explicit data: the set of existing paths is a
  `List String`, a directory tree is a `FSDir` value, and
  `os.path.abspath` is modelled relative to an explicit `cwd`.
-/

namespace MAS

/-! ### Python character classes (ASCII model) -/

/-- Characters that Python's `str.strip()` and the regex class `\s`
treat as whitespace (ASCII fragment: space, tab, newline, carriage
return, vertical tab, form feed). -/
def isPySpace (c : Char) : Bool :=
  c = ' ' || c = '\t' || c = '\n' || c = '\r' || c = Char.ofNat 11 || c = Char.ofNat 12

/-- Python `str.strip()` on a character list. -/
def pyStripL (l : List Char) : List Char :=
  ((l.dropWhile isPySpace).reverse.dropWhile isPySpace).reverse

/-- Python `str.strip()`. -/
def pyStrip (s : String) : String := ⟨pyStripL s.data⟩

/-- Python `str.rstrip()` on a character list. -/
def pyRstripL (l : List Char) : List Char :=
  (l.reverse.dropWhile isPySpace).reverse

/-! ### `utils.sanitize_filename` (src/utils.py lines 340–348) -/

/-- Python `s.replace("\\\\", "_")` from `utils.sanitize_filename`
line 343: the pattern literal denotes TWO backslash characters, so each
non-overlapping occurrence of a double backslash becomes one
underscore; a lone backslash is left untouched by this step. -/
def replaceDoubleBackslash : List Char → List Char
  | [] => []
  | '\\' :: '\\' :: rest => '_' :: replaceDoubleBackslash rest
  | c :: rest => c :: replaceDoubleBackslash rest

/-- A character kept by `re.sub(r"[^\w \-\.()\[\]]+", "", s)`
(ASCII model of `\w` = letters, digits, underscore). -/
def isAllowedChar (c : Char) : Bool :=
  c.isAlphanum || c = '_' || c = ' ' || c = '-' || c = '.' ||
  c = '(' || c = ')' || c = '[' || c = ']'

/-- Helper for `collapseWs`: `inRun` records whether the previous
character was whitespace (the single replacement space has already been
emitted for the current run). -/
def collapseWsAux : Bool → List Char → List Char
  | _, [] => []
  | inRun, c :: rest =>
    if isPySpace c then
      (if inRun then collapseWsAux true rest else ' ' :: collapseWsAux true rest)
    else c :: collapseWsAux false rest

/-- `re.sub(r"\s+", " ", s)`: every maximal run of whitespace becomes a
single space character. -/
def collapseWs (l : List Char) : List Char :=
  collapseWsAux false l

/-- `utils.sanitize_filename` with its default `maxlen = 200`
(src/utils.py lines 340–348): strip outer whitespace, replace `/` by
`_`, replace double backslashes by `_`, delete disallowed characters,
collapse whitespace runs, and truncate to 200 characters with a
trailing `rstrip`. -/
def sanitize_filename (s : String) : String :=
  let l := pyStripL s.data
  let l := l.map fun c => if c = '/' then '_' else c
  let l := replaceDoubleBackslash l
  let l := l.filter isAllowedChar
  let l := collapseWs l
  ⟨if 200 < l.length then pyRstripL (l.take 200) else l⟩

/-- What claim C8 (and the spec) say `sanitize_filename` does: identical
to `sanitize_filename` except that EVERY path separator — `/` and every
single `\` — is replaced by an underscore. Stated from the spec's
words, for comparison with the source-derived definition. -/
def sanitizeSpecBothSeparators (s : String) : String :=
  let l := pyStripL s.data
  let l := l.map fun c => if c = '/' || c = '\\' then '_' else c
  let l := l.filter isAllowedChar
  let l := collapseWs l
  ⟨if 200 < l.length then pyRstripL (l.take 200) else l⟩

/-! ### Track file name construction (src/utils.py lines 574–578) -/

/-- Python `f"{n:02d}"` for a natural number: decimal digits,
left-padded with `0` to width two. -/
def pad2 (n : Nat) : String :=
  let s := Nat.repr n
  if s.length < 2 then ⟨List.replicate (2 - s.length) '0' ++ s.data⟩ else s

/-- The file name `process_path` derives when renaming
(src/utils.py lines 574–578):
`base_new = f"{int(track):02d}. {sanitize_filename(title)}"` followed by
the original extension. -/
def build_track_file_name (track : Nat) (title ext : String) : String :=
  pad2 track ++ ". " ++ sanitize_filename title ++ ext

/-! ### `utils.process_image_to_jpeg`, dimension model (lines 126–167)

Only the pixel dimensions are tracked: alpha flattening and the RGB
conversion (lines 144–149) paste/convert onto a canvas of identical
size, and the JPEG encode does not change dimensions. -/

/-- An image as decoded by `Image.open`: pixel dimensions, the EXIF
orientation tag (`0` models an absent tag), and whether the decoded
mode carries an alpha channel. -/
structure RawImage where
  width : Nat
  height : Nat
  orientation : Nat
  hasAlpha : Bool

/-- Dimensions after `ImageOps.exif_transpose` (line 138): EXIF
orientations 5–8 involve a 90° rotation and swap width and height;
orientations 1–4 (and an absent tag) keep them. -/
def exif_transpose_dims (im : RawImage) : Nat × Nat :=
  if im.orientation = 5 || im.orientation = 6 || im.orientation = 7 || im.orientation = 8 then
    (im.height, im.width)
  else (im.width, im.height)

/-- The conditional resize of `process_image_to_jpeg` (lines 151–154):
`if orig_w > target_width: target_h = int(target_width * orig_h / orig_w)`.
`int()` truncates the non-negative float ratio, modelled as exact
rational truncation, i.e. `Nat` floor division. -/
def resize_dims (target_width : Nat) (wh : Nat × Nat) : Nat × Nat :=
  if target_width < wh.1 then (target_width, target_width * wh.2 / wh.1) else wh

/-- Output pixel dimensions of `process_image_to_jpeg` at the default
`target_width = 600`. -/
def process_image_dims (im : RawImage) : Nat × Nat :=
  resize_dims 600 (exif_transpose_dims im)

/-- `round(a / b)` as the spec's height formula states it (round half
away from zero; the counterexample below is not a half-way case, so
Python's banker's rounding agrees with it there). -/
def specRoundDiv (a b : Nat) : Nat := (2 * a + b) / (2 * b)

/-! ### Path helpers (`os.path`, POSIX flavor) -/

/-- `os.path.isabs`: the path starts with `/`. -/
def isAbs (s : String) : Bool := s.data.head? == some '/'

/-- `os.path.abspath` relative to an explicit current working
directory (normalization of `.`/`..`/duplicate slashes is not
modelled; the paths in this development are already normal). -/
def abspath (cwd p : String) : String :=
  if isAbs p then p else cwd ++ "/" ++ p

/-- ASCII `str.lower()`. -/
def asciiLower (s : String) : String :=
  ⟨s.data.map fun c => if 'A' ≤ c ∧ c ≤ 'Z' then Char.ofNat (c.toNat + 32) else c⟩

/-- `os.path.splitext` (POSIX `genericpath._splitext`): the extension
starts at the last dot, provided that dot comes after the last `/` and
at least one non-dot character lies between them (leading dots of the
base name never start an extension). -/
def splitext (s : String) : String × String :=
  let cs := s.data
  let fi := match cs.reverse.findIdx? (· = '/') with
    | none => 0
    | some rj => cs.length - rj
  match cs.reverse.findIdx? (· = '.') with
  | none => (s, "")
  | some rj =>
    let i := cs.length - 1 - rj
    if fi < i ∧ ((cs.drop fi).take (i - fi)).any (fun c => c ≠ '.') then
      (⟨cs.take i⟩, ⟨cs.drop i⟩)
    else (s, "")

/-! ### `utils.find_audio_files` and `utils.get_majority_album`
(src/utils.py lines 41–46 and 489–507) -/

/-- `utils.DEFAULT_EXTENSIONS`. -/
def DEFAULT_EXTENSIONS : List String :=
  [".mp3", ".m4a", ".mp4", ".flac", ".ogg", ".opus", ".wav", ".aac", ".wma"]

/-- One file yielded by `os.walk` rooted at the folder under analysis:
the `dirpath` that `os.walk` reported for it (the root string itself
for direct children, `root + "/" + subdir` for nested ones), the file
name, and the result of `get_album` on that file. For a name free of
separators, `os.path.dirname(os.path.join(dirpath, name)) = dirpath`,
so the source's `dirname` call recovers exactly this `dirpath`. -/
structure WalkEntry where
  dirpath : String
  name : String
  album : Option String

/-- `utils.find_audio_files`: keep the walked files whose extension,
lowercased, is in the recognized set. -/
def find_audio_files (listing : List WalkEntry) : List WalkEntry :=
  listing.filter fun e => asciiLower (splitext e.name).2 ∈ DEFAULT_EXTENSIONS

/-- `collections.Counter` key order: first-encounter order of the
distinct values (Python dicts preserve insertion order). -/
def counterKeys (l : List String) : List String :=
  l.foldl (fun acc a => if a ∈ acc then acc else acc ++ [a]) []

/-- `Counter(l).most_common(1)[0][0]`: the first-encountered value among
those of maximal multiplicity (CPython's `most_common(1)` reduces to
`max` over the counter's items, which keeps the earliest maximum). -/
def most_common1 (l : List String) : Option String :=
  match counterKeys l with
  | [] => none
  | k :: ks => some (ks.foldl (fun best a => if l.count best < l.count a then a else best) k)

/-- The album values `get_majority_album` accumulates (lines 493–499):
walk the folder, keep audio files whose `dirname` equals
`os.path.abspath(folder)`, and for those keep `album.strip()` whenever
`album` and `album.strip()` are truthy. -/
def collect_albums (cwd folder : String) (listing : List WalkEntry) : List String :=
  (find_audio_files listing).filterMap fun e =>
    if e.dirpath = abspath cwd folder then
      match e.album with
      | none => none
      | some a => if a = "" then none else if pyStrip a = "" then none else some (pyStrip a)
    else none

/-- The same collection with the comparison the claim describes:
keep exactly the files walked at the root itself. -/
def direct_albums (folder : String) (listing : List WalkEntry) : List String :=
  (find_audio_files listing).filterMap fun e =>
    if e.dirpath = folder then
      match e.album with
      | none => none
      | some a => if a = "" then none else if pyStrip a = "" then none else some (pyStrip a)
    else none

/-- `utils.get_majority_album` (lines 489–507). -/
def get_majority_album (cwd folder : String) (listing : List WalkEntry) : Option String :=
  let albums := collect_albums cwd folder listing
  if albums.isEmpty then none else most_common1 albums

/-- A folder `/m` whose direct children carry albums
`["Foo", "Foo", "Bar"]` and whose subfolder `sub` holds one more audio
file with album `"Baz"`. -/
def exampleFolderListing : List WalkEntry :=
  [⟨"/m", "a.mp3", some "Foo"⟩, ⟨"/m", "b.mp3", some "Foo"⟩,
   ⟨"/m", "c.mp3", some "Bar"⟩, ⟨"/m/sub", "d.mp3", some "Baz"⟩]

/-- A folder `/m` with no audio children (one non-audio file). -/
def exampleNoAudioListing : List WalkEntry :=
  [⟨"/m", "notes.txt", some "Foo"⟩]

/-! ### `utils.safe_rename` collision resolution (src/utils.py lines 351–365) -/

/-- `os.path.join d n` for a final component free of separators
(Python: no extra slash when `d` is empty or already ends in one). -/
def joinPath (d n : String) : String :=
  if d = "" then n
  else if d.data.getLast? = some '/' then d ++ n
  else d ++ "/" ++ n

/-- `os.path.dirname` (POSIX): everything before the last `/`, with
trailing slashes stripped unless the head is all slashes. -/
def dirname (p : String) : String :=
  match p.data.reverse.findIdx? (· = '/') with
  | none => ""
  | some rj =>
    let i := p.data.length - 1 - rj
    let head := p.data.take (i + 1)
    if head.all (· = '/') then ⟨head⟩ else ⟨(head.reverse.dropWhile (· = '/')).reverse⟩

/-- The candidate targets `safe_rename` probes, in order: first
`join(dirname(old_path), new_name)` (line 353), then
`join(dirname(old_path), f"{base}_{count}{ext}")` for
`count = 1, 2, …` (line 357). -/
def rename_candidate (old_path new_name : String) : Nat → String
  | 0 => joinPath (dirname old_path) new_name
  | Nat.succ k =>
    joinPath (dirname old_path)
      ((splitext new_name).1 ++ "_" ++ Nat.repr (k + 1) ++ (splitext new_name).2)

/-- The `while` loop of `safe_rename` (lines 355–358) with explicit
fuel: advance while the current candidate exists and is not the same
file (same absolute path) as the original. The source's loop is
unbounded; `resolve_from_spec` below shows `existing.length + 2` fuel
always reaches the loop's exit condition, so this fueled translation
computes the loop's result. -/
def resolve_from (existing : List String) (cwd old : String) (cand : Nat → String) :
    Nat → Nat → String
  | k, 0 => cand k
  | k, Nat.succ fuel =>
    if cand k ∈ existing ∧ abspath cwd (cand k) ≠ abspath cwd old then
      resolve_from existing cwd old cand (k + 1) fuel
    else cand k

/-- The target path `utils.safe_rename` settles on before calling
`shutil.move`: the first probed candidate that either does not exist or
is the same file as the original. -/
def resolve_collision (cwd old_path new_name : String) (existing : List String) : String :=
  resolve_from existing cwd old_path (rename_candidate old_path new_name) 0
    (existing.length + 2)

/-- Decimal value of a digit string, used to invert `Nat.repr`. -/
def decDigits (l : List Char) : Nat :=
  l.foldl (fun a c => a * 10 + (c.toNat - 48)) 0

/-! ### `utils.process_path` (lines 551–598) and `main.process_files`
(src/main.py lines 181–209) -/

/-- `os.path.basename` (POSIX): everything after the last `/`. -/
def basename (p : String) : String :=
  ⟨(p.data.reverse.takeWhile (· ≠ '/')).reverse⟩

/-- The options `process_path` reads from its `args` argument via
`getattr`. -/
structure Args where
  do_embed : Bool
  do_rename : Bool
  backup : Bool
deriving DecidableEq

/-- One audio file as the pipeline observes it: the per-file metadata
read results and which of its fallible effects would fail.
* `cover`: result of `extract_cover_bytes` (bytes and MIME);
* `coverDecodes`: whether `process_image_to_jpeg` succeeds on those
  bytes (if not, its exception propagates to `process_path`'s outer
  handler, line 597);
* `backupCopyRaises`: whether the `shutil.copy2` backup copy raises —
  swallowed by `embed_cover`'s inner handler (lines 378–381);
* `embedWriteRaises`: whether the container rejects the cover write or
  the tag save raises — caught by `embed_cover`'s outer handler
  (lines 485–486);
* `track`, `title`: results of `get_track_number` / `get_title`;
* `moveRaises`: whether `shutil.move` raises inside `safe_rename` —
  caught at lines 360–365, which return the old path. -/
structure Asset where
  path : String
  cover : Option (List Nat × String)
  coverDecodes : Bool
  backupCopyRaises : Bool
  embedWriteRaises : Bool
  track : Option Nat
  title : Option String
  moveRaises : Bool
deriving DecidableEq

/-- Observable outcome of `utils.embed_cover` (lines 368–487): its
whole body sits in a `try/except Exception` handler that only prints
`"Error embedding cover into …"`, so the call always returns normally;
a failed write is logged, never re-raised. A failed backup copy is
swallowed even earlier by its own inner handler. -/
inductive EmbedOutcome where
  | ok
  | loggedError
deriving DecidableEq

/-- `utils.embed_cover` as `process_path` observes it: a normal return,
carrying only the logged outcome. -/
def embed_cover (a : Asset) : EmbedOutcome :=
  if a.embedWriteRaises then .loggedError else .ok

/-- `utils.safe_rename` (lines 351–365): resolve the target collision,
then `shutil.move`; a move failure is caught, logged, and the original
path is returned (line 365). -/
def safe_rename (cwd : String) (existing : List String) (a : Asset) (new_name : String) :
    String :=
  let target := resolve_collision cwd a.path new_name existing
  if a.moveRaises then a.path else target

/-- The trailing `if not did_something` block of `process_path`
(lines 588–596). -/
def process_path_final (a : Asset) (args : Args) (did : Bool) : String × String × String :=
  if !did then
    if args.do_embed && !args.do_rename then ("skipped", a.path, "no embedded cover")
    else if args.do_rename && !args.do_embed then
      ("skipped", a.path, "no track number metadata")
    else ("skipped", a.path, "no cover and no track number")
  else ("processed", a.path, "ok")

/-- `utils.process_path` (lines 551–598), returning the
`(status, path, message)` triple. The only modelled operation whose
exception reaches the outer `except` handler is
`process_image_to_jpeg` (a decode failure); `embed_cover` and
`safe_rename` catch their own errors and return normally. -/
def process_path (cwd : String) (existing : List String) (a : Asset) (args : Args) :
    String × String × String :=
  if args.do_embed && a.cover.isSome && !a.coverDecodes then
    ("error", a.path, "cannot identify image file")
  else
    let did1 := args.do_embed && a.cover.isSome
    let _cover_write := if did1 then some (embed_cover a) else none
    if args.do_rename then
      match a.track with
      | some track =>
        let rawTitle := match a.title with
          | some t => if t = "" then (splitext (basename a.path)).1 else t
          | none => (splitext (basename a.path)).1
        let new_name := build_track_file_name track rawTitle (splitext a.path).2
        let new_path := safe_rename cwd existing a new_name
        ("processed", new_path, "ok")
      | none =>
        if !args.do_embed then ("skipped", a.path, "no track number metadata")
        else process_path_final a args did1
    else process_path_final a args did1

/-- `main.process_files`: one `process_path` call per input file; the
sequential branch (lines 202–207) is this `map`, and the thread-pool
branch (lines 193–201) submits exactly the same independent per-file
calls, collecting one result per future. -/
def process_files (cwd : String) (existing : List String) (args : Args)
    (assets : List Asset) : List (String × String × String) :=
  assets.map fun a => process_path cwd existing a args

/-- A concrete asset whose cover decodes but whose container rejects
the cover write. -/
def exampleWriteFailAsset : Asset :=
  ⟨"/m/a.mp3", some ([255, 216, 255], "image/jpeg"), true, false, true, none, none, false⟩

/-- A concrete asset with no cover and no track-number metadata. -/
def exampleNoTrackAsset : Asset :=
  ⟨"/m/b.mp3", none, true, false, false, none, none, false⟩

/-! ### Format adapters: the metadata read operations
(`extract_cover_bytes` lines 49–123, `get_track_number` lines 170–230,
`get_title` lines 233–283, `get_album` lines 286–337)

Bytes are naturals below 256. Each mutagen loading step is a `…Load`
sum whose `raised` constructor stands for any exception the library
throws while opening/parsing the file; the source catches all of them
(`except Exception`) and answers `None`. -/

/-- `re.match(r"(\d+)", s)` followed by `int(m.group(1))`
(ASCII digits). -/
def numPrefix (s : String) : Option Nat :=
  let ds := s.data.takeWhile Char.isDigit
  if ds.isEmpty then none else some (decDigits ds)

/-- An attached picture as mutagen exposes it (APIC frame or FLAC
picture block): payload bytes and declared MIME type. -/
structure APICFrame where
  data : List Nat
  mime : String
deriving DecidableEq

/-- The ID3v2 frames the reads touch. Text frames carry their list of
text values (`frame.text`); `trck`/`tit2`/`talb` hold one entry per
frame of that kind, in tag order. -/
structure ID3Tags where
  trck : List (List String)
  tit2 : List (List String)
  talb : List (List String)
  apic : List APICFrame
deriving DecidableEq

/-- `ID3(path)`: no ID3 header (`ID3NoHeaderError`), any other
exception, or parsed tags. -/
inductive ID3Load where
  | noHeader
  | raised
  | ok (tags : ID3Tags)
deriving DecidableEq

/-- A `trkn` atom entry: mutagen yields `(track, total)` pairs; a
malformed entry that is not a list/tuple fails the `isinstance`
check at line 190. -/
inductive TrknEntry where
  | pair (track total : Nat)
  | nonPair
deriving DecidableEq

structure MP4Tags where
  trkn : Option (List TrknEntry)
  nam : Option (List String)
  alb : Option (List String)
  covr : Option (List (List Nat))
deriving DecidableEq

/-- `MP4(path)`: an exception, a file whose `tags` attribute is `None`
(every later access raises, caught by the outer handler), or tags. -/
inductive MP4Load where
  | raised
  | noTags
  | ok (tags : MP4Tags)
deriving DecidableEq

/-- The Vorbis-comment fields the FLAC reads probe (`get` with the
lowercase and uppercase spellings) plus the picture blocks. -/
structure FLACTags where
  tracknumber : Option (List String)
  tracknumberU : Option (List String)
  title : Option (List String)
  titleU : Option (List String)
  album : Option (List String)
  albumU : Option (List String)
deriving DecidableEq

structure FLACFile where
  tags : Option FLACTags
  pictures : List APICFrame
deriving DecidableEq

inductive FLACLoad where
  | raised
  | ok (f : FLACFile)
deriving DecidableEq

/-- An Ogg Vorbis comment mapping: key to list of string values. -/
structure OggFile where
  tags : List (String × List String)
deriving DecidableEq

inductive OggLoad where
  | raised
  | ok (f : OggFile)
deriving DecidableEq

/-- `ogg.get(key)`. -/
def oggGet (og : OggFile) (k : String) : Option (List String) :=
  (og.tags.find? (fun kv => kv.1 == k)).map (·.2)

/-- Python `a or b` over two `dict.get` results (None and the empty
list are falsy). -/
def pyOrVals (a b : Option (List String)) : Option (List String) :=
  match a with
  | some l => if l.isEmpty then b else some l
  | none => b

/-- A value probed out of a generic (format-sniffed) tag object:
either a scalar string or a list of strings. -/
inductive GenVal where
  | vstr (s : String)
  | vlist (l : List String)
deriving DecidableEq

/-- A generic `mutagen.File(path)` result: `tags` is the key/value
view probed with `get` (`none` when the attribute is `None`), and
`apic` is what `tags.getall("APIC")` would yield — `none` when the tag
object has no such ID3-style interface (the `AttributeError` is
swallowed at lines 118–119). -/
structure GenFile where
  tags : Option (List (String × GenVal))
  apic : Option (List APICFrame)
deriving DecidableEq

/-- `File(path)`: `None` (unrecognized), an exception, or a file. -/
inductive GenLoad where
  | fileNone
  | raised
  | ok (g : GenFile)
deriving DecidableEq

/-- `f.tags.get(key)` on the generic file. -/
def genGet (kv : List (String × GenVal)) (k : String) : Option GenVal :=
  (kv.find? (fun p => p.1 == k)).map (·.2)

/-- `if val:` truthiness of a probed value. -/
def genTruthy : Option GenVal → Bool
  | none => false
  | some (.vstr s) => !(s == "")
  | some (.vlist l) => !l.isEmpty

/-- `val = val[0] if isinstance(val, (list, tuple)) else val`, then
`str(val)` (the empty-list case is unreachable behind the truthiness
check). -/
def genFirstStr : GenVal → String
  | .vstr s => s
  | .vlist [] => ""
  | .vlist (t :: _) => t

/-- The generic track-number probe (lines 216–228): first key whose
truthy value has a numeric prefix. -/
def genProbeTrack (kv : List (String × GenVal)) : List String → Option Nat
  | [] => none
  | k :: ks =>
    let val := genGet kv k
    if genTruthy val then
      match val with
      | some v =>
        match numPrefix (genFirstStr v) with
        | some n => some n
        | none => genProbeTrack kv ks
      | none => genProbeTrack kv ks
    else genProbeTrack kv ks

/-- The generic title/album probe (lines 272–281, 326–335): the first
key with a truthy value, stringified. -/
def genProbeStr (kv : List (String × GenVal)) : List String → Option String
  | [] => none
  | k :: ks =>
    let val := genGet kv k
    if genTruthy val then
      match val with
      | some v => some (genFirstStr v)
      | none => none
    else genProbeStr kv ks

/-- A file as the extension dispatch (`.mp3` / `.m4a,.mp4` / `.flac` /
`.ogg,.opus` / everything else) sees it: the constructor is the
extension family, the payload the loading outcome. -/
inductive MFile where
  | mp3 (l : ID3Load)
  | mp4 (l : MP4Load)
  | flac (l : FLACLoad)
  | ogg (l : OggLoad)
  | generic (l : GenLoad)
deriving DecidableEq

/-- `utils.get_track_number` (lines 170–230). -/
def get_track_number (f : MFile) : Option Nat :=
  match f with
  | .mp3 .noHeader => none
  | .mp3 .raised => none
  | .mp3 (.ok tags) =>
    match tags.trck with
    | [] => none
    | texts :: _ =>
      match texts with
      | [] => none
      | t :: _ => numPrefix t
  | .mp4 .raised => none
  | .mp4 .noTags => none
  | .mp4 (.ok tags) =>
    match tags.trkn with
    | none => none
    | some [] => none
    | some (e :: _) =>
      match e with
      | .pair tr _ => some tr
      | .nonPair => none
  | .flac .raised => none
  | .flac (.ok fl) =>
    match fl.tags with
    | none => none
    | some tg =>
      match pyOrVals tg.tracknumber tg.tracknumberU with
      | some (t :: _) => numPrefix t
      | _ => none
  | .ogg .raised => none
  | .ogg (.ok og) =>
    match pyOrVals (oggGet og "tracknumber") (oggGet og "TRACKNUMBER") with
    | some (t :: _) => numPrefix t
    | _ => none
  | .generic .fileNone => none
  | .generic .raised => none
  | .generic (.ok g) =>
    match g.tags with
    | none => none
    | some [] => none
    | some kv => genProbeTrack kv ["tracknumber", "TRACKNUMBER", "TRCK", "trkn"]

/-- `utils.get_title` (lines 233–283). -/
def get_title (f : MFile) : Option String :=
  match f with
  | .mp3 .noHeader => none
  | .mp3 .raised => none
  | .mp3 (.ok tags) =>
    match tags.tit2 with
    | [] => none
    | texts :: _ =>
      match texts with
      | [] => none
      | t :: _ => some t
  | .mp4 .raised => none
  | .mp4 .noTags => none
  | .mp4 (.ok tags) =>
    match tags.nam with
    | none => none
    | some [] => none
    | some (t :: _) => some t
  | .flac .raised => none
  | .flac (.ok fl) =>
    match fl.tags with
    | none => none
    | some tg =>
      match pyOrVals tg.title tg.titleU with
      | some (t :: _) => some t
      | _ => none
  | .ogg .raised => none
  | .ogg (.ok og) =>
    match pyOrVals (oggGet og "title") (oggGet og "TITLE") with
    | some (t :: _) => some t
    | _ => none
  | .generic .fileNone => none
  | .generic .raised => none
  | .generic (.ok g) =>
    match g.tags with
    | none => none
    | some [] => none
    | some kv => genProbeStr kv ["title", "TITLE", "TIT2", "©nam"]

/-- `utils.get_album` (lines 286–337). -/
def get_album (f : MFile) : Option String :=
  match f with
  | .mp3 .noHeader => none
  | .mp3 .raised => none
  | .mp3 (.ok tags) =>
    match tags.talb with
    | [] => none
    | texts :: _ =>
      match texts with
      | [] => none
      | t :: _ => some t
  | .mp4 .raised => none
  | .mp4 .noTags => none
  | .mp4 (.ok tags) =>
    match tags.alb with
    | none => none
    | some [] => none
    | some (t :: _) => some t
  | .flac .raised => none
  | .flac (.ok fl) =>
    match fl.tags with
    | none => none
    | some tg =>
      match pyOrVals tg.album tg.albumU with
      | some (t :: _) => some t
      | _ => none
  | .ogg .raised => none
  | .ogg (.ok og) =>
    match pyOrVals (oggGet og "album") (oggGet og "ALBUM") with
    | some (t :: _) => some t
    | _ => none
  | .generic .fileNone => none
  | .generic .raised => none
  | .generic (.ok g) =>
    match g.tags with
    | none => none
    | some [] => none
    | some kv => genProbeStr kv ["album", "ALBUM", "TALB", "©alb"]

/-- Value of a base64 alphabet character. -/
def b64Val (c : Char) : Option Nat :=
  if 'A' ≤ c ∧ c ≤ 'Z' then some (c.toNat - 65)
  else if 'a' ≤ c ∧ c ≤ 'z' then some (c.toNat - 97 + 26)
  else if '0' ≤ c ∧ c ≤ '9' then some (c.toNat - 48 + 52)
  else if c = '+' then some 62
  else if c = '/' then some 63
  else none

/-- Pack 6-bit groups into bytes; a leftover single value is an
incorrect-padding error. -/
def b64Groups : List Nat → Option (List Nat)
  | [] => some []
  | [_] => none
  | [v1, v2] => some [v1 * 4 + v2 / 16]
  | [v1, v2, v3] => some [v1 * 4 + v2 / 16, v2 % 16 * 16 + v3 / 4]
  | v1 :: v2 :: v3 :: v4 :: rest =>
    match b64Groups rest with
    | none => none
    | some bs => some ([v1 * 4 + v2 / 16, v2 % 16 * 16 + v3 / 4, v3 % 4 * 64 + v4] ++ bs)

/-- `base64.b64decode` in its default lenient mode: characters outside
the alphabet are discarded, data stops at the first `=`, and an
incorrect padding (a leftover lone 6-bit group) raises — which the
caller's outer handler turns into a warning and `None`. -/
def pyB64Decode (s : String) : Option (List Nat) :=
  b64Groups ((s.data.takeWhile (· ≠ '=')).filterMap b64Val)

/-- Read a 32-bit big-endian integer off a byte list. -/
def be32 : List Nat → Option (Nat × List Nat)
  | b1 :: b2 :: b3 :: b4 :: rest => some (((b1 * 256 + b2) * 256 + b3) * 256 + b4, rest)
  | _ => none

/-- Take exactly `n` bytes. -/
def takeExact (n : Nat) (l : List Nat) : Option (List Nat × List Nat) :=
  if n ≤ l.length then some (l.take n, l.drop n) else none

/-- Parsing of a binary `METADATA_BLOCK_PICTURE` block (mutagen's
`Picture`): type, MIME, description, dimensions, color info, data.
Any failure of the library call — truncation, or the call itself
raising — takes `extract_cover_bytes`'s fallback branch, the
magic-byte scan. -/
def picParse (raw : List Nat) : Option (List Nat × String) := do
  let (_ptype, r) ← be32 raw
  let (mlen, r) ← be32 r
  let (mime, r) ← takeExact mlen r
  let (dlen, r) ← be32 r
  let (_desc, r) ← takeExact dlen r
  let (_w, r) ← be32 r
  let (_h, r) ← be32 r
  let (_depth, r) ← be32 r
  let (_colors, r) ← be32 r
  let (datalen, r) ← be32 r
  let (dat, _) ← takeExact datalen r
  return (dat, ⟨mime.map Char.ofNat⟩)

/-- `bytes.find(pat)`: index of the first occurrence, if any. -/
def findSub (pat : List Nat) : List Nat → Option Nat
  | [] => if pat.isEmpty then some 0 else none
  | x :: xs =>
    if pat.isPrefixOf (x :: xs) then some 0
    else match findSub pat xs with
      | some i => some (i + 1)
      | none => none

def jpegMagic : List Nat := [255, 216, 255]

def pngMagic : List Nat := [137, 80, 78, 71]

/-- The Ogg branch of `extract_cover_bytes` (lines 83–107): find the
`metadata_block_picture` key case-insensitively, base64-decode its
first value, parse it as a picture block, and on parse failure scan
the raw bytes for a JPEG or PNG signature. -/
def oggExtractCover (og : OggFile) : Option (List Nat × String) :=
  match (og.tags.map (·.1)).find? (fun k => asciiLower k == "metadata_block_picture") with
  | none => none
  | some key =>
    match oggGet og key with
    | none => none
    | some [] => none
    | some (b64 :: _) =>
      match pyB64Decode b64 with
      | none => none
      | some raw =>
        match picParse raw with
        | some res => some res
        | none =>
          match findSub jpegMagic raw with
          | some i => some (raw.drop i, "image/jpeg")
          | none =>
            match findSub pngMagic raw with
            | some i => some (raw.drop i, "image/png")
            | none => none

/-- `utils.extract_cover_bytes` (lines 49–123). -/
def extract_cover_bytes (f : MFile) : Option (List Nat × String) :=
  match f with
  | .mp3 .noHeader => none
  | .mp3 .raised => none
  | .mp3 (.ok tags) =>
    match tags.apic with
    | [] => none
    | fr :: _ => some (fr.data, fr.mime)
  | .mp4 .raised => none
  | .mp4 .noTags => none
  | .mp4 (.ok tags) =>
    match tags.covr with
    | none => none
    | some [] => none
    | some (d :: _) =>
      some (d, if d.take 3 = jpegMagic then "image/jpeg" else "image/png")
  | .flac .raised => none
  | .flac (.ok fl) =>
    match fl.pictures with
    | [] => none
    | p :: _ => some (p.data, p.mime)
  | .ogg .raised => none
  | .ogg (.ok og) => oggExtractCover og
  | .generic .fileNone => none
  | .generic .raised => none
  | .generic (.ok g) =>
    match g.tags with
    | none => none
    | some [] => none
    | some _ =>
      match g.apic with
      | none => none
      | some [] => none
      | some (fr :: _) => some (fr.data, fr.mime)

end MAS

/-! ## Theorems -/

namespace MAS

/-! ### Helper lemmas about `sanitize_filename` -/

theorem mem_collapseWsAux :
    ∀ {b : Bool} {l : List Char} {c : Char}, c ∈ collapseWsAux b l → c = ' ' ∨ c ∈ l := by
  intro b l
  induction l generalizing b with
  | nil => intro c h; simp [collapseWsAux] at h
  | cons a t ih =>
    intro c h
    simp only [collapseWsAux] at h
    split at h
    · split at h
      · rcases ih h with h1 | h1
        · exact Or.inl h1
        · exact Or.inr (List.mem_cons_of_mem _ h1)
      · rcases List.mem_cons.mp h with h1 | h1
        · exact Or.inl h1
        · rcases ih h1 with h2 | h2
          · exact Or.inl h2
          · exact Or.inr (List.mem_cons_of_mem _ h2)
    · rcases List.mem_cons.mp h with h1 | h1
      · exact Or.inr (h1 ▸ List.mem_cons_self _ _)
      · rcases ih h1 with h2 | h2
        · exact Or.inl h2
        · exact Or.inr (List.mem_cons_of_mem _ h2)

theorem pyRstripL_sublist (l : List Char) : List.Sublist (pyRstripL l) l := by
  have h := (List.dropWhile_sublist (l := l.reverse) isPySpace).reverse
  simpa [pyRstripL] using h

/-- Every character of `sanitize_filename s` passes the allowed-set
filter. -/
theorem sanitize_filename_mem_allowed {s : String} {c : Char}
    (h : c ∈ (sanitize_filename s).data) : isAllowedChar c = true := by
  simp only [sanitize_filename] at h
  have hL : c ∈ collapseWs (((replaceDoubleBackslash
      ((pyStripL s.data).map fun c => if c = '/' then '_' else c))).filter isAllowedChar) := by
    split at h
    · exact (List.take_sublist 200 _).subset ((pyRstripL_sublist _).subset h)
    · exact h
  rcases mem_collapseWsAux hL with h1 | h1
  · subst h1; decide
  · exact (List.mem_filter.mp h1).2

/-- `sanitize_filename` never emits more than 200 characters. -/
theorem sanitize_filename_length_le (s : String) : (sanitize_filename s).length ≤ 200 := by
  simp only [sanitize_filename, String.length]
  split
  · refine le_trans (pyRstripL_sublist _).length_le ?_
    rw [List.length_take]
    exact Nat.min_le_left _ _
  · omega

/-- C8 — counterexample. The claim says `sanitize_filename` replaces
every path separator — `/` and `\` alike — with an underscore. On the
input `a\b` (one backslash) the source deletes the backslash instead:
the `replace` pattern at line 343 is a *double* backslash, so a lone
backslash survives that step and is then stripped by the
disallowed-character removal. The spec-worded variant
`sanitizeSpecBothSeparators` shows what the claim predicts. -/
theorem sanitize_filename_backslash_counterexample :
    sanitize_filename "a\\b" = "ab" ∧
    sanitizeSpecBothSeparators "a\\b" = "a_b" ∧
    sanitize_filename "a\\b" ≠ sanitizeSpecBothSeparators "a\\b" := by
  refine ⟨by decide, by decide, by decide⟩

/-- C8 — amended. `sanitize_filename` trims outer whitespace, replaces
`/` with `_`, replaces each *pair* of consecutive backslashes with one
`_`, deletes every character outside
letters/digits/underscore/space/hyphen/dot/parentheses/brackets (this
deletes a lone backslash rather than replacing it with an underscore),
collapses whitespace runs to one space, and truncates to 200 characters
trimming trailing whitespace. Consequently no separator character ever
survives, every output character is in the allowed set, and the output
has at most 200 characters. -/
theorem sanitize_filename_amended :
    (∀ s : String,
      (∀ c ∈ (sanitize_filename s).data, isAllowedChar c = true) ∧
      (sanitize_filename s).length ≤ 200 ∧
      '/' ∉ (sanitize_filename s).data ∧
      '\\' ∉ (sanitize_filename s).data) ∧
    sanitize_filename "a/b" = "a_b" ∧
    sanitize_filename "a\\\\b" = "a_b" ∧
    sanitize_filename "a\\b" = "ab" ∧
    sanitize_filename "  My   Song!  " = "My Song" := by
  refine ⟨fun s => ⟨fun c hc => sanitize_filename_mem_allowed hc,
    sanitize_filename_length_le s, fun h => ?_, fun h => ?_⟩,
    by decide, by decide, by decide, by decide⟩
  · exact absurd (sanitize_filename_mem_allowed h) (by decide)
  · exact absurd (sanitize_filename_mem_allowed h) (by decide)

/-- C7. The derived file name is the track number zero-padded to two
digits, `". "`, the sanitized title, and the extension; in particular
`track = 7`, `title = "My Song!"`, `ext = ".mp3"` yields
`"07. My Song.mp3"` (sanitization strips the `!`), and any track number
below 100 yields exactly two leading digits. -/
theorem build_track_file_name_spec :
    (∀ (track : Nat) (title ext : String),
      build_track_file_name track title ext =
        pad2 track ++ ". " ++ sanitize_filename title ++ ext) ∧
    (∀ n : Nat, n < 10 → pad2 n = ⟨'0' :: (Nat.repr n).data⟩) ∧
    build_track_file_name 7 "My Song!" ".mp3" = "07. My Song.mp3" := by
  refine ⟨fun _ _ _ => rfl, fun n hn => ?_, by decide⟩
  have hlen : (Nat.repr n).length = 1 := by
    interval_cases n <;> rfl
  simp [pad2, hlen]

/-! ### C2 and C5 — image normalization dimensions -/

/-- C5. Normalization never changes the dimensions of an image whose
width (after orientation correction; alpha handling keeps dimensions)
is at most 600 pixels — it never upscales. -/
theorem process_image_dims_no_upscale (im : RawImage)
    (h : (exif_transpose_dims im).1 ≤ 600) :
    process_image_dims im = exif_transpose_dims im := by
  unfold process_image_dims resize_dims
  rw [if_neg (by omega)]

theorem process_image_dims_no_upscale_witness :
    (exif_transpose_dims ⟨400, 300, 1, false⟩).1 ≤ 600 ∧
    process_image_dims ⟨400, 300, 1, false⟩ = exif_transpose_dims ⟨400, 300, 1, false⟩ :=
  ⟨by decide, process_image_dims_no_upscale ⟨400, 300, 1, false⟩ (by decide)⟩

/-- C2 — counterexample. For a 1000×1001 image (width > 600) the source
computes the height as `int(600 * 1001 / 1000) = int(600.6) = 600`
(truncation), while the claim's formula `round(600 * 1001 / 1000)`
gives 601. -/
theorem process_image_dims_round_counterexample :
    process_image_dims ⟨1000, 1001, 1, false⟩ = (600, 600) ∧
    specRoundDiv (600 * 1001) 1000 = 601 ∧
    (process_image_dims ⟨1000, 1001, 1, false⟩).2 ≠
      specRoundDiv (600 * (exif_transpose_dims ⟨1000, 1001, 1, false⟩).2)
        (exif_transpose_dims ⟨1000, 1001, 1, false⟩).1 := by
  refine ⟨by decide, by decide, by decide⟩

/-- C2 — amended. For every decodable image whose width after
orientation correction and alpha handling exceeds 600 pixels,
normalization produces width exactly 600 and height
`⌊600 * origHeight / origWidth⌋` (truncating division, from the
source's `int(...)`), which differs from `round(...)` by at most one
pixel. -/
theorem process_image_dims_downscale (im : RawImage)
    (h : 600 < (exif_transpose_dims im).1) :
    process_image_dims im =
      (600, 600 * (exif_transpose_dims im).2 / (exif_transpose_dims im).1) := by
  unfold process_image_dims resize_dims
  rw [if_pos h]

theorem build_track_file_name_spec_witness :
    (7 : Nat) < 10 ∧ pad2 7 = ⟨'0' :: (Nat.repr 7).data⟩ :=
  ⟨by decide, build_track_file_name_spec.2.1 7 (by decide)⟩

theorem sanitize_filename_amended_witness :
    'a' ∈ (sanitize_filename "ab").data ∧ isAllowedChar 'a' = true :=
  ⟨by decide, (sanitize_filename_amended.1 "ab").1 'a' (by decide)⟩

theorem process_image_dims_downscale_witness :
    600 < (exif_transpose_dims ⟨1000, 999, 1, false⟩).1 ∧
    process_image_dims ⟨1000, 999, 1, false⟩ =
      (600, 600 * (exif_transpose_dims ⟨1000, 999, 1, false⟩).2 /
        (exif_transpose_dims ⟨1000, 999, 1, false⟩).1) :=
  ⟨by decide, process_image_dims_downscale ⟨1000, 999, 1, false⟩ (by decide)⟩

/-! ### Helper lemmas about `counterKeys` and `most_common1` -/

theorem mem_counterKeys_aux :
    ∀ (l acc : List String) (x : String),
      x ∈ l.foldl (fun acc a => if a ∈ acc then acc else acc ++ [a]) acc ↔ x ∈ acc ∨ x ∈ l := by
  intro l
  induction l with
  | nil => intro acc x; simp
  | cons a t ih =>
    intro acc x
    simp only [List.foldl_cons]
    rw [ih]
    by_cases ha : a ∈ acc
    · rw [if_pos ha]
      simp only [List.mem_cons]
      constructor
      · rintro (h | h)
        · exact Or.inl h
        · exact Or.inr (Or.inr h)
      · rintro (h | rfl | h)
        · exact Or.inl h
        · exact Or.inl ha
        · exact Or.inr h
    · rw [if_neg ha]
      simp only [List.mem_append, List.mem_singleton, List.mem_cons]
      tauto

theorem mem_counterKeys {l : List String} {x : String} :
    x ∈ counterKeys l ↔ x ∈ l := by
  unfold counterKeys
  rw [mem_counterKeys_aux]
  simp

/-- The fold inside `most_common1` returns a value of maximal `f`-score,
and it is the first-encountered value achieving that score. -/
theorem foldl_first_max (f : String → Nat) :
    ∀ (ks : List String) (k : String),
      (∀ a ∈ k :: ks, f a ≤ f (List.foldl (fun b a => if f b < f a then a else b) k ks)) ∧
      (k :: ks).find? (fun a => f a == f (List.foldl (fun b a => if f b < f a then a else b) k ks)) =
        some (List.foldl (fun b a => if f b < f a then a else b) k ks) := by
  intro ks
  induction ks with
  | nil =>
    intro k
    refine ⟨?_, ?_⟩
    · intro a ha
      rcases List.mem_cons.mp ha with rfl | h
      · exact Nat.le_refl _
      · exact absurd h (List.not_mem_nil a)
    · show List.find? (fun a => f a == f k) [k] = some k
      exact List.find?_cons_of_pos _ (by simp)
  | cons a ks ih =>
    intro k
    simp only [List.foldl_cons]
    by_cases hka : f k < f a
    · rw [if_pos hka]
      obtain ⟨hall, hfind⟩ := ih a
      have hkm : f k < f (List.foldl (fun b a => if f b < f a then a else b) a ks) :=
        lt_of_lt_of_le hka (hall a (List.mem_cons_self _ _))
      refine ⟨?_, ?_⟩
      · intro x hx
        rcases List.mem_cons.mp hx with rfl | hx
        · exact le_of_lt hkm
        · exact hall x hx
      · rw [List.find?_cons_of_neg, hfind]
        simp only [beq_iff_eq]
        exact Nat.ne_of_lt hkm
    · rw [if_neg hka]
      obtain ⟨hall, hfind⟩ := ih k
      have hak : f a ≤ f k := Nat.le_of_not_lt hka
      have hkm : f k ≤ f (List.foldl (fun b a => if f b < f a then a else b) k ks) :=
        hall k (List.mem_cons_self _ _)
      refine ⟨?_, ?_⟩
      · intro x hx
        rcases List.mem_cons.mp hx with rfl | hx
        · exact hkm
        · rcases List.mem_cons.mp hx with rfl | hx
          · exact le_trans hak hkm
          · exact hall x (List.mem_cons_of_mem _ hx)
      · by_cases hkeq : f k = f (List.foldl (fun b a => if f b < f a then a else b) k ks)
        · have hk : List.find? (fun x => f x == f (List.foldl (fun b a => if f b < f a then a else b) k ks)) (k :: ks) = some k := by
            rw [List.find?_cons_of_pos]
            simp [hkeq]
          have hmk : List.foldl (fun b a => if f b < f a then a else b) k ks = k := by
            have := hfind.symm.trans hk
            injection this
          rw [hmk]
          rw [List.find?_cons_of_pos]
          simp [← hkeq, hmk]
        · have htail : List.find? (fun x => f x == f (List.foldl (fun b a => if f b < f a then a else b) k ks)) ks =
              some (List.foldl (fun b a => if f b < f a then a else b) k ks) := by
            rw [List.find?_cons_of_neg] at hfind
            · exact hfind
            · simp only [beq_iff_eq]; exact hkeq
          have haeq : f a ≠ f (List.foldl (fun b a => if f b < f a then a else b) k ks) := by
            intro h
            exact hkeq (le_antisymm hkm (h ▸ hak))
          rw [List.find?_cons_of_neg, List.find?_cons_of_neg, htail]
          · simp only [beq_iff_eq]; exact haeq
          · simp only [beq_iff_eq]; exact hkeq

/-- Characterization of `Counter(l).most_common(1)`: the result is a
member of maximal multiplicity, and among the keys (in first-encounter
order) it is the first one achieving that multiplicity. -/
theorem most_common1_spec {l : List String} {m : String} (h : most_common1 l = some m) :
    m ∈ l ∧ (∀ a ∈ l, l.count a ≤ l.count m) ∧
    (counterKeys l).find? (fun a => l.count a == l.count m) = some m := by
  unfold most_common1 at h
  cases hck : counterKeys l with
  | nil => rw [hck] at h; exact absurd h (by simp)
  | cons k ks =>
    rw [hck] at h
    have hm : List.foldl (fun b a => if l.count b < l.count a then a else b) k ks = m := by
      injection h
    obtain ⟨hall, hfind⟩ := foldl_first_max (fun x => l.count x) ks k
    rw [hm] at hall hfind
    have hmem : m ∈ counterKeys l := by
      rw [hck]
      exact List.mem_of_find?_eq_some hfind
    refine ⟨mem_counterKeys.mp hmem, ?_, ?_⟩
    · intro a hal
      have : a ∈ counterKeys l := mem_counterKeys.mpr hal
      rw [hck] at this
      exact hall a this
    · exact hfind

/-! ### C3 — majority album -/

/-- C3. With an absolute folder path, `get_majority_album` collects
exactly the stripped, non-empty album values of the audio files walked
at the folder itself (nested directory paths can never equal the
folder's path, so nested assets are excluded); the result is the
first-encountered value of maximal multiplicity among those collected;
on direct-child albums `["Foo", "Foo", "Bar"]` (plus a nested `"Baz"`)
it returns `"Foo"`, and with zero audio children it returns `none`. -/
theorem get_majority_album_spec :
    (∀ cwd folder listing, isAbs folder = true →
      collect_albums cwd folder listing = direct_albums folder listing) ∧
    (∀ folder t : String, folder ++ "/" ++ t ≠ folder) ∧
    (∀ cwd folder listing m, get_majority_album cwd folder listing = some m →
      m ∈ collect_albums cwd folder listing ∧
      (∀ a ∈ collect_albums cwd folder listing,
        (collect_albums cwd folder listing).count a ≤ (collect_albums cwd folder listing).count m) ∧
      (counterKeys (collect_albums cwd folder listing)).find?
        (fun a => (collect_albums cwd folder listing).count a ==
          (collect_albums cwd folder listing).count m) = some m) ∧
    get_majority_album "/" "/m" exampleFolderListing = some "Foo" ∧
    get_majority_album "/" "/m" [] = none ∧
    get_majority_album "/" "/m" exampleNoAudioListing = none := by
  refine ⟨?_, ?_, ?_, by decide, by decide, by decide⟩
  · intro cwd folder listing habs
    simp [collect_albums, direct_albums, abspath, habs]
  · intro folder t h
    have := congrArg String.length h
    simp only [String.length_append] at this
    have h1 : ("/" : String).length = 1 := rfl
    omega
  · intro cwd folder listing m h
    have h2 : most_common1 (collect_albums cwd folder listing) = some m := by
      unfold get_majority_album at h
      by_cases he : (collect_albums cwd folder listing).isEmpty
      · rw [if_pos he] at h; exact absurd h (by simp)
      · rw [if_neg he] at h; exact h
    exact most_common1_spec h2

theorem get_majority_album_spec_witness :
    (isAbs "/m" = true ∧
      collect_albums "/" "/m" exampleFolderListing = direct_albums "/m" exampleFolderListing) ∧
    (get_majority_album "/" "/m" exampleFolderListing = some "Foo" ∧
      "Foo" ∈ collect_albums "/" "/m" exampleFolderListing) :=
  ⟨⟨by decide, get_majority_album_spec.1 "/" "/m" exampleFolderListing (by decide)⟩,
   ⟨by decide, (get_majority_album_spec.2.2.1 "/" "/m" exampleFolderListing "Foo" (by decide)).1⟩⟩

/-! ### C10 — relative folder paths defeat the majority vote -/

theorem isAbs_append (a b : String) (ha : a ≠ "") : isAbs (a ++ b) = isAbs a := by
  unfold isAbs
  rw [String.data_append]
  cases h : a.data with
  | nil =>
    exact absurd (String.ext (h.trans rfl)) ha
  | cons c t => simp [h]

theorem ne_empty_of_isAbs {s : String} (h : isAbs s = true) : s ≠ "" := by
  intro he
  rw [he] at h
  exact absurd h (by decide)

/-- C10. When the folder path is relative, every `dirpath` that
`os.walk` yields (the folder string itself, or it extended by a
subdirectory) is still relative, while the source compares it against
`os.path.abspath(folder)`, an absolute string; no file ever matches,
so `get_majority_album` returns `none` even when direct children carry
album tags. -/
theorem get_majority_album_relative (cwd folder : String) (listing : List WalkEntry)
    (hcwd : isAbs cwd = true) (hrel : isAbs folder = false) (hfne : folder ≠ "")
    (hw : ∀ e ∈ listing, e.dirpath = folder ∨ ∃ t, e.dirpath = folder ++ "/" ++ t) :
    get_majority_album cwd folder listing = none := by
  have habs : abspath cwd folder = cwd ++ "/" ++ folder := by
    simp [abspath, hrel]
  have habsTrue : isAbs (abspath cwd folder) = true := by
    rw [habs, String.append_assoc, isAbs_append _ _ (ne_empty_of_isAbs hcwd)]
    exact hcwd
  have hnone : collect_albums cwd folder listing = [] := by
    unfold collect_albums
    rw [List.filterMap_eq_nil_iff]
    intro e he
    unfold find_audio_files at he
    have hmem : e ∈ listing := List.mem_of_mem_filter he
    have hne : e.dirpath ≠ abspath cwd folder := by
      rcases hw e hmem with hd | ⟨t, hd⟩
      · intro hEq
        rw [hd] at hEq
        rw [← hEq] at habsTrue
        exact absurd (hrel ▸ habsTrue) (by simp)
      · intro hEq
        rw [hd] at hEq
        rw [← hEq, String.append_assoc, isAbs_append _ _ hfne, hrel] at habsTrue
        exact absurd habsTrue (by simp)
    rw [if_neg hne]
  unfold get_majority_album
  rw [hnone]
  rfl

/-! ### `Nat.repr` is injective (needed for the `_1`, `_2`, … suffix loop) -/

theorem decDigits_foldl_shift (l : List Char) :
    ∀ a : Nat, List.foldl (fun a c => a * 10 + (c.toNat - 48)) a l =
      a * 10 ^ l.length + List.foldl (fun a c => a * 10 + (c.toNat - 48)) 0 l := by
  induction l with
  | nil => intro a; simp
  | cons c t ih =>
    intro a
    simp only [List.foldl_cons, List.length_cons]
    rw [ih (a * 10 + (c.toNat - 48)), ih (0 * 10 + (c.toNat - 48))]
    ring

theorem decDigits_append (l1 l2 : List Char) :
    decDigits (l1 ++ l2) = decDigits l1 * 10 ^ l2.length + decDigits l2 := by
  unfold decDigits
  rw [List.foldl_append]
  exact decDigits_foldl_shift l2 _

theorem digitChar_val {d : Nat} (hd : d < 10) : (Nat.digitChar d).toNat - 48 = d := by
  interval_cases d <;> rfl

theorem toDigitsCore_acc (fuel : Nat) :
    ∀ (n : Nat) (l : List Char),
      Nat.toDigitsCore 10 fuel n l = Nat.toDigitsCore 10 fuel n [] ++ l := by
  induction fuel with
  | zero => intro n l; simp [Nat.toDigitsCore]
  | succ fuel ih =>
    intro n l
    simp only [Nat.toDigitsCore]
    by_cases h : n / 10 = 0
    · rw [if_pos h, if_pos h]
      rfl
    · rw [if_neg h, if_neg h, ih (n / 10) (Nat.digitChar (n % 10) :: l),
        ih (n / 10) [Nat.digitChar (n % 10)]]
      simp

theorem decDigits_toDigitsCore :
    ∀ (n fuel : Nat), n < fuel → decDigits (Nat.toDigitsCore 10 fuel n []) = n := by
  intro n
  induction n using Nat.strong_induction_on with
  | _ n ih =>
    intro fuel hf
    cases fuel with
    | zero => omega
    | succ fuel =>
      simp only [Nat.toDigitsCore]
      by_cases h : n / 10 = 0
      · rw [if_pos h]
        have hn : n < 10 := by omega
        unfold decDigits
        simp only [List.foldl_cons, List.foldl_nil]
        rw [digitChar_val (Nat.mod_lt n (by omega))]
        omega
      · rw [if_neg h]
        rw [toDigitsCore_acc fuel (n / 10) [Nat.digitChar (n % 10)]]
        rw [decDigits_append]
        have h1 : n / 10 < n := by omega
        have h2 : n / 10 < fuel := by omega
        rw [ih (n / 10) h1 fuel h2]
        have hsing : decDigits [Nat.digitChar (n % 10)] = n % 10 := by
          unfold decDigits
          simp only [List.foldl_cons, List.foldl_nil]
          rw [digitChar_val (Nat.mod_lt n (by omega))]
          omega
        rw [hsing]
        simp only [List.length_singleton, pow_one]
        omega

theorem nat_repr_injective : Function.Injective Nat.repr := by
  intro m n h
  have hdata : Nat.toDigits 10 m = Nat.toDigits 10 n := by
    have h2 := congrArg String.data h
    simpa [Nat.repr, List.asString] using h2
  have h1 : decDigits (Nat.toDigits 10 m) = m :=
    decDigits_toDigitsCore m (m + 1) (Nat.lt_succ_self m)
  have h2 : decDigits (Nat.toDigits 10 n) = n :=
    decDigits_toDigitsCore n (n + 1) (Nat.lt_succ_self n)
  rw [← h1, ← h2, hdata]

/-! ### C6 — collision resolution -/

theorem joinPath_right_inj (d : String) {n1 n2 : String}
    (h : joinPath d n1 = joinPath d n2) : n1 = n2 := by
  unfold joinPath at h
  by_cases h0 : d = ""
  · rw [if_pos h0, if_pos h0] at h
    exact h
  · rw [if_neg h0, if_neg h0] at h
    by_cases h1 : d.data.getLast? = some '/'
    · rw [if_pos h1, if_pos h1] at h
      apply String.ext
      have h2 := congrArg String.data h
      simp only [String.data_append] at h2
      exact List.append_cancel_left h2
    · rw [if_neg h1, if_neg h1] at h
      apply String.ext
      have h2 := congrArg String.data h
      simp only [String.data_append, List.append_assoc] at h2
      exact List.append_cancel_left (List.append_cancel_left h2)

theorem rename_candidate_injective (old nn : String) :
    ∀ {i j : Nat}, 1 ≤ i → 1 ≤ j →
      rename_candidate old nn i = rename_candidate old nn j → i = j := by
  intro i j hi hj h
  cases i with
  | zero => omega
  | succ i2 =>
    cases j with
    | zero => omega
    | succ j2 =>
      simp only [rename_candidate] at h
      have h2 := joinPath_right_inj _ h
      have h3 := congrArg String.data h2
      simp only [String.data_append] at h3
      have h4 := List.append_cancel_right h3
      have h5 := List.append_cancel_left h4
      have h6 : Nat.repr (i2 + 1) = Nat.repr (j2 + 1) := String.ext h5
      have := nat_repr_injective h6
      omega

theorem rename_candidate_exit (existing : List String) (cwd old nn : String) :
    ∃ m, m < existing.length + 2 ∧
      (rename_candidate old nn m ∉ existing ∨
        abspath cwd (rename_candidate old nn m) = abspath cwd old) := by
  by_contra hc
  push_neg at hc
  have hmem : ∀ i < existing.length + 1, rename_candidate old nn (i + 1) ∈ existing := by
    intro i hi
    exact (hc (i + 1) (by omega)).1
  have hnodup :
      ((List.range (existing.length + 1)).map (fun i => rename_candidate old nn (i + 1))).Nodup := by
    refine List.Nodup.map_on ?_ (List.nodup_range _)
    intro x hx y hy hxy
    have := rename_candidate_injective old nn (i := x + 1) (j := y + 1)
      (by omega) (by omega) hxy
    omega
  have hsub :
      ((List.range (existing.length + 1)).map (fun i => rename_candidate old nn (i + 1)))
        ⊆ existing := by
    intro x hx
    rcases List.mem_map.mp hx with ⟨i, hi, rfl⟩
    exact hmem i (List.mem_range.mp hi)
  have hsp := List.subperm_of_subset hnodup hsub
  have hle := hsp.length_le
  simp only [List.length_map, List.length_range] at hle
  omega

theorem resolve_from_spec (existing : List String) (cwd old : String) (cand : Nat → String) :
    ∀ (fuel k : Nat),
      (∃ j, k ≤ j ∧ j < k + fuel ∧
        (cand j ∉ existing ∨ abspath cwd (cand j) = abspath cwd old)) →
      ∃ m, k ≤ m ∧
        resolve_from existing cwd old cand k fuel = cand m ∧
        (cand m ∉ existing ∨ abspath cwd (cand m) = abspath cwd old) ∧
        (∀ j, k ≤ j → j < m →
          cand j ∈ existing ∧ abspath cwd (cand j) ≠ abspath cwd old) := by
  intro fuel
  induction fuel with
  | zero =>
    intro k hex
    obtain ⟨j, hj1, hj2, _⟩ := hex
    omega
  | succ fuel ih =>
    intro k hex
    simp only [resolve_from]
    by_cases hk : cand k ∈ existing ∧ abspath cwd (cand k) ≠ abspath cwd old
    · rw [if_pos hk]
      obtain ⟨j, hj1, hj2, hj3⟩ := hex
      have hjk : j ≠ k := by
        rintro rfl
        rcases hj3 with h | h
        · exact h hk.1
        · exact hk.2 h
      obtain ⟨m, hm1, hm2, hm3, hm4⟩ := ih (k + 1) ⟨j, by omega, by omega, hj3⟩
      refine ⟨m, by omega, hm2, hm3, ?_⟩
      intro j2 hj2a hj2b
      by_cases hj2k : j2 = k
      · subst hj2k; exact hk
      · exact hm4 j2 (by omega) hj2b
    · rw [if_neg hk]
      refine ⟨k, Nat.le_refl k, rfl, ?_, ?_⟩
      · by_cases hmem : cand k ∈ existing
        · right
          by_contra hne
          exact hk ⟨hmem, hne⟩
        · exact Or.inl hmem
      · intro j hj1 hj2
        omega

/-- C6. For every working directory, original path, requested name and
set of existing paths, the collision-resolution loop of `safe_rename`
returns one of the probed candidates — the requested target or a
`{base}_{k}{ext}` suffixed variant — such that the result either does
not collide with any existing file or is the same file (same absolute
path) as the original, and every earlier candidate was rejected
because it exists and is not the original. -/
theorem resolve_collision_spec (cwd old_path new_name : String) (existing : List String) :
    ∃ m, resolve_collision cwd old_path new_name existing =
        rename_candidate old_path new_name m ∧
      (resolve_collision cwd old_path new_name existing ∉ existing ∨
        abspath cwd (resolve_collision cwd old_path new_name existing) =
          abspath cwd old_path) ∧
      (∀ j < m, rename_candidate old_path new_name j ∈ existing ∧
        abspath cwd (rename_candidate old_path new_name j) ≠ abspath cwd old_path) := by
  obtain ⟨m0, hm0a, hm0b⟩ := rename_candidate_exit existing cwd old_path new_name
  obtain ⟨m, hm1, hm2, hm3, hm4⟩ :=
    resolve_from_spec existing cwd old_path (rename_candidate old_path new_name)
      (existing.length + 2) 0 ⟨m0, by omega, by omega, hm0b⟩
  have hrc : resolve_collision cwd old_path new_name existing =
      rename_candidate old_path new_name m := hm2
  refine ⟨m, hrc, ?_, fun j hj => hm4 j (Nat.zero_le j) hj⟩
  rw [hrc]
  exact hm3

/-! ### C9 — metadata reads are total and fail soft -/

theorem genProbeTrack_none {kv : List (String × GenVal)} :
    ∀ ks : List String, (∀ k ∈ ks, genGet kv k = none) → genProbeTrack kv ks = none := by
  intro ks
  induction ks with
  | nil => intro _; rfl
  | cons k ks ih =>
    intro h
    simp only [genProbeTrack, h k (List.mem_cons_self k ks), genTruthy]
    exact ih fun k2 hk2 => h k2 (List.mem_cons_of_mem _ hk2)

theorem genProbeStr_none {kv : List (String × GenVal)} :
    ∀ ks : List String, (∀ k ∈ ks, genGet kv k = none) → genProbeStr kv ks = none := by
  intro ks
  induction ks with
  | nil => intro _; rfl
  | cons k ks ih =>
    intro h
    simp only [genProbeStr, h k (List.mem_cons_self k ks), genTruthy]
    exact ih fun k2 hk2 => h k2 (List.mem_cons_of_mem _ hk2)

/-- C9. Every metadata read is a total function into `Option` — the
model's exception constructors (`raised`, `noHeader`, `fileNone`,
`noTags`) are *inputs*, and the reads map them to `none` rather than
propagating them — and a missing header, missing frame/field, or
malformed value likewise yields `none`:
* any load failure makes all four reads answer `none`;
* a missing frame (no TRCK/TIT2/TALB/APIC, no `trkn`/`©nam`/`©alb`/
  `covr` atom, no Vorbis-comment block or field, no probed generic
  key) answers `none`;
* a malformed value (empty ID3 text list, non-numeric track text,
  non-pair `trkn` entry, undecodable base64 picture, unparsable
  picture block without an image signature) answers `none`. -/
theorem metadata_reads_soft :
    (∀ f : MFile,
      (f = .mp3 .noHeader ∨ f = .mp3 .raised ∨ f = .mp4 .raised ∨ f = .mp4 .noTags ∨
        f = .flac .raised ∨ f = .ogg .raised ∨ f = .generic .fileNone ∨
        f = .generic .raised) →
      get_track_number f = none ∧ get_title f = none ∧ get_album f = none ∧
        extract_cover_bytes f = none) ∧
    (∀ t2 t3 ap, get_track_number (.mp3 (.ok ⟨[], t2, t3, ap⟩)) = none) ∧
    (∀ t1 t3 ap, get_title (.mp3 (.ok ⟨t1, [], t3, ap⟩)) = none) ∧
    (∀ t1 t2 ap, get_album (.mp3 (.ok ⟨t1, t2, [], ap⟩)) = none) ∧
    (∀ t1 t2 t3, extract_cover_bytes (.mp3 (.ok ⟨t1, t2, t3, []⟩)) = none) ∧
    (∀ r t2 t3 ap, get_track_number (.mp3 (.ok ⟨[] :: r, t2, t3, ap⟩)) = none) ∧
    (∀ t ts r t2 t3 ap, numPrefix t = none →
      get_track_number (.mp3 (.ok ⟨(t :: ts) :: r, t2, t3, ap⟩)) = none) ∧
    (∀ nam alb covr, get_track_number (.mp4 (.ok ⟨none, nam, alb, covr⟩)) = none) ∧
    (∀ nam alb covr, get_track_number (.mp4 (.ok ⟨some [], nam, alb, covr⟩)) = none) ∧
    (∀ r nam alb covr,
      get_track_number (.mp4 (.ok ⟨some (.nonPair :: r), nam, alb, covr⟩)) = none) ∧
    (∀ trkn alb covr, get_title (.mp4 (.ok ⟨trkn, none, alb, covr⟩)) = none) ∧
    (∀ trkn nam covr, get_album (.mp4 (.ok ⟨trkn, nam, none, covr⟩)) = none) ∧
    (∀ trkn nam alb, extract_cover_bytes (.mp4 (.ok ⟨trkn, nam, alb, none⟩)) = none) ∧
    (∀ pics, get_track_number (.flac (.ok ⟨none, pics⟩)) = none ∧
      get_title (.flac (.ok ⟨none, pics⟩)) = none ∧
      get_album (.flac (.ok ⟨none, pics⟩)) = none) ∧
    (∀ ti tiU al alU pics,
      get_track_number (.flac (.ok ⟨some ⟨none, none, ti, tiU, al, alU⟩, pics⟩)) = none) ∧
    (∀ t ts tnU ti tiU al alU pics, numPrefix t = none →
      get_track_number
        (.flac (.ok ⟨some ⟨some (t :: ts), tnU, ti, tiU, al, alU⟩, pics⟩)) = none) ∧
    (∀ tg, extract_cover_bytes (.flac (.ok ⟨tg, []⟩)) = none) ∧
    (get_track_number (.ogg (.ok ⟨[]⟩)) = none ∧ get_title (.ogg (.ok ⟨[]⟩)) = none ∧
      get_album (.ogg (.ok ⟨[]⟩)) = none ∧ extract_cover_bytes (.ogg (.ok ⟨[]⟩)) = none) ∧
    (∀ og, oggGet og "tracknumber" = none → oggGet og "TRACKNUMBER" = none →
      get_track_number (.ogg (.ok og)) = none) ∧
    (∀ b64 rest, pyB64Decode b64 = none →
      extract_cover_bytes (.ogg (.ok ⟨[("METADATA_BLOCK_PICTURE", b64 :: rest)]⟩)) = none) ∧
    (∀ b64 rest raw, pyB64Decode b64 = some raw → picParse raw = none →
      findSub jpegMagic raw = none → findSub pngMagic raw = none →
      extract_cover_bytes (.ogg (.ok ⟨[("METADATA_BLOCK_PICTURE", b64 :: rest)]⟩)) = none) ∧
    (∀ ap, get_track_number (.generic (.ok ⟨none, ap⟩)) = none ∧
      get_title (.generic (.ok ⟨none, ap⟩)) = none ∧
      get_album (.generic (.ok ⟨none, ap⟩)) = none ∧
      extract_cover_bytes (.generic (.ok ⟨none, ap⟩)) = none) ∧
    (∀ ap, get_track_number (.generic (.ok ⟨some [], ap⟩)) = none ∧
      get_title (.generic (.ok ⟨some [], ap⟩)) = none ∧
      get_album (.generic (.ok ⟨some [], ap⟩)) = none ∧
      extract_cover_bytes (.generic (.ok ⟨some [], ap⟩)) = none) ∧
    (∀ kv ap,
      (∀ k ∈ (["tracknumber", "TRACKNUMBER", "TRCK", "trkn"] : List String),
        genGet kv k = none) →
      get_track_number (.generic (.ok ⟨some kv, ap⟩)) = none) ∧
    (∀ kv ap,
      (∀ k ∈ (["title", "TITLE", "TIT2", "©nam"] : List String), genGet kv k = none) →
      get_title (.generic (.ok ⟨some kv, ap⟩)) = none) ∧
    (∀ kv ap,
      (∀ k ∈ (["album", "ALBUM", "TALB", "©alb"] : List String), genGet kv k = none) →
      get_album (.generic (.ok ⟨some kv, ap⟩)) = none) ∧
    (∀ kv, extract_cover_bytes (.generic (.ok ⟨some kv, none⟩)) = none) ∧
    (∀ kv, extract_cover_bytes (.generic (.ok ⟨some kv, some []⟩)) = none) := by
  have hkey : (asciiLower "METADATA_BLOCK_PICTURE" == "metadata_block_picture") = true := by
    decide
  refine ⟨?_, ?_, ?_, ?_, ?_, ?_, ?_, ?_, ?_, ?_, ?_, ?_, ?_, ?_, ?_, ?_, ?_, ?_, ?_,
    ?_, ?_, ?_, ?_, ?_, ?_, ?_, ?_, ?_⟩
  · rintro f (rfl | rfl | rfl | rfl | rfl | rfl | rfl | rfl) <;> exact ⟨rfl, rfl, rfl, rfl⟩
  · intro t2 t3 ap; rfl
  · intro t1 t3 ap; rfl
  · intro t1 t2 ap; rfl
  · intro t1 t2 t3; rfl
  · intro r t2 t3 ap; rfl
  · intro t ts r t2 t3 ap h
    simp [get_track_number, h]
  · intro nam alb covr; rfl
  · intro nam alb covr; rfl
  · intro r nam alb covr; rfl
  · intro trkn alb covr; rfl
  · intro trkn nam covr; rfl
  · intro trkn nam alb; rfl
  · intro pics; exact ⟨rfl, rfl, rfl⟩
  · intro ti tiU al alU pics; rfl
  · intro t ts tnU ti tiU al alU pics h
    simp [get_track_number, pyOrVals, h]
  · intro tg; rfl
  · exact ⟨rfl, rfl, rfl, rfl⟩
  · intro og h1 h2
    simp [get_track_number, pyOrVals, h1, h2]
  · intro b64 rest h
    simp [extract_cover_bytes, oggExtractCover, List.find?, hkey, oggGet, h]
  · intro b64 rest raw h1 h2 h3 h4
    simp [extract_cover_bytes, oggExtractCover, List.find?, hkey, oggGet, h1, h2, h3, h4]
  · intro ap; exact ⟨rfl, rfl, rfl, rfl⟩
  · intro ap; exact ⟨rfl, rfl, rfl, rfl⟩
  · intro kv ap h
    cases kv with
    | nil => rfl
    | cons p ps =>
      simp only [get_track_number]
      exact genProbeTrack_none _ h
  · intro kv ap h
    cases kv with
    | nil => rfl
    | cons p ps =>
      simp only [get_title]
      exact genProbeStr_none _ h
  · intro kv ap h
    cases kv with
    | nil => rfl
    | cons p ps =>
      simp only [get_album]
      exact genProbeStr_none _ h
  · intro kv
    cases kv with
    | nil => rfl
    | cons p ps => rfl
  · intro kv
    cases kv with
    | nil => rfl
    | cons p ps => rfl

theorem metadata_reads_soft_witness :
    get_track_number (.mp3 .noHeader) = none ∧ get_title (.mp3 .noHeader) = none ∧
    get_album (.mp3 .noHeader) = none ∧ extract_cover_bytes (.mp3 .noHeader) = none :=
  metadata_reads_soft.1 (.mp3 .noHeader) (Or.inl rfl)

/-! ### C1 and C4 — per-asset pipeline outcomes -/

/-- C1 — counterexample. An asset whose cover decodes but whose
container rejects the write: `embed_cover` logs the failure and
returns, and `process_path` reports the asset as `"processed"` —
not as an `"error"` outcome as the claim states. -/
theorem process_path_write_failure_counterexample :
    exampleWriteFailAsset.embedWriteRaises = true ∧
    embed_cover exampleWriteFailAsset = EmbedOutcome.loggedError ∧
    process_path "/" [] exampleWriteFailAsset ⟨true, false, false⟩ =
      ("processed", "/m/a.mp3", "ok") ∧
    (process_path "/" [] exampleWriteFailAsset ⟨true, false, false⟩).1 ≠ "error" := by
  refine ⟨rfl, rfl, by decide, by decide⟩

/-- C1 — amended. For every asset whose cover decodes, a cover-write
failure (container rejects the write, save raises, or the backup copy
raises) is caught inside `embed_cover` and only logged: `process_path`
returns a `"processed"` outcome for that asset, not an `"error"`, and
the failure never aborts the batch — `process_files` still yields
exactly one independently-computed outcome per asset. -/
theorem process_path_write_failure_amended (cwd : String) (existing : List String)
    (a : Asset) (args : Args) (hemb : args.do_embed = true)
    (hcov : a.cover.isSome = true) (hdec : a.coverDecodes = true)
    (hfail : a.embedWriteRaises = true) :
    embed_cover a = EmbedOutcome.loggedError ∧
    (process_path cwd existing a args).1 = "processed" ∧
    (∀ assets : List Asset, (process_files cwd existing args assets).length = assets.length) ∧
    (∀ (assets : List Asset) (i : Nat),
      (process_files cwd existing args assets)[i]? =
        (assets[i]?).map fun x => process_path cwd existing x args) := by
  refine ⟨by simp [embed_cover, hfail], ?_, ?_, ?_⟩
  · obtain ⟨de, dr, bk⟩ := args
    simp only at hemb
    subst hemb
    simp only [process_path, hcov, hdec]
    cases dr with
    | false => simp [process_path_final]
    | true =>
      cases htr : a.track with
      | none => simp [process_path_final, htr]
      | some t => simp [htr]
  · intro assets
    simp [process_files]
  · intro assets i
    simp [process_files]

theorem process_path_write_failure_amended_witness :
    (Args.mk true false false).do_embed = true ∧
    exampleWriteFailAsset.cover.isSome = true ∧
    exampleWriteFailAsset.coverDecodes = true ∧
    exampleWriteFailAsset.embedWriteRaises = true ∧
    (process_path "/" [] exampleWriteFailAsset ⟨true, false, false⟩).1 = "processed" :=
  ⟨rfl, rfl, rfl, rfl,
    (process_path_write_failure_amended "/" [] exampleWriteFailAsset ⟨true, false, false⟩
      rfl rfl rfl rfl).2.1⟩

/-- C4. For every asset processed with rename as the only requested
operation and whose track-number read yields no value, `process_path`
returns exactly one outcome for the asset: `Skipped` with reason
`"no track number metadata"` (so zero `Processed` and zero `Error`
outcomes for it). -/
theorem process_path_rename_only_no_track (cwd : String) (existing : List String)
    (a : Asset) (bk : Bool) (htr : a.track = none) :
    process_path cwd existing a ⟨false, true, bk⟩ =
      ("skipped", a.path, "no track number metadata") := by
  simp [process_path, htr]

theorem process_path_rename_only_no_track_witness :
    exampleNoTrackAsset.track = none ∧
    process_path "/" [] exampleNoTrackAsset ⟨false, true, false⟩ =
      ("skipped", "/m/b.mp3", "no track number metadata") :=
  ⟨rfl, process_path_rename_only_no_track "/" [] exampleNoTrackAsset false rfl⟩

theorem get_majority_album_relative_witness :
    isAbs "/cwd" = true ∧ isAbs "m" = false ∧ ("m" : String) ≠ "" ∧
    get_majority_album "/cwd" "m" [⟨"m", "a.mp3", some "Foo"⟩] = none :=
  ⟨by decide, by decide, by decide,
    get_majority_album_relative "/cwd" "m" [⟨"m", "a.mp3", some "Foo"⟩]
      (by decide) (by decide) (by decide)
      (by intro e he; rcases List.mem_singleton.mp he with rfl; exact Or.inl rfl)⟩

end MAS
